import Mathlib

/-!
Verification development for the FA-5/6GP monitor-control application
(`fa5usbdata.py`, `ui_main.py`).  The Python data model and the operations
under study are embedded shallowly: Python strings become `String` values
manipulated through their character lists, `decimal.Decimal` values become
exact rationals `ℚ` (the 28-significant-digit context never rounds any of
the quantities handled here), timestamps become an explicit `now : ℚ`
parameter, and code that can raise an exception returns an `Option`.
-/

/-! ## Python string primitives -/

/-- Python `str.strip()` restricted to ASCII whitespace (the device lines
only ever carry `' '`, `'\t'`, `'\r'`, `'\n'`). -/
def pyStrip (s : String) : String :=
  String.mk (((s.data.dropWhile Char.isWhitespace).reverse.dropWhile Char.isWhitespace).reverse)

/-- Python `str.split(sep)` for a one-character separator, on character
lists.  `"a,b,".split(',') = ["a", "b", ""]` and `"".split(',') = [""]`. -/
def splitOnCharL (c : Char) : List Char → List (List Char)
  | [] => [[]]
  | a :: rest =>
    match splitOnCharL c rest with
    | [] => [[]]
    | g :: gs => if a = c then [] :: g :: gs else (a :: g) :: gs

/-- Python `s.split(c)` for a one-character separator `c`. -/
def strSplit (s : String) (c : Char) : List String :=
  (splitOnCharL c s.data).map String.mk

/-- Python `s[-n:]` (the whole string when `n ≥ len(s)`). -/
def takeLast (s : String) (n : ℕ) : String :=
  String.mk (s.data.drop (s.data.length - n))

/-- Clamp a Python slice endpoint (negative = from the end) to `[0, n]`. -/
def sliceIdx (n : ℕ) (k : ℤ) : ℕ :=
  if k < 0 then ((n : ℤ) + k).toNat else min k.toNat n

/-- Python `s[a:b]` with the usual negative-index and clamping rules. -/
def pySlice (s : String) (a b : ℤ) : String :=
  let l := s.data
  let st := sliceIdx l.length a
  let en := sliceIdx l.length b
  String.mk ((l.drop st).take (en - st))

/-- Substring test on character lists, as in Python `pat in s`. -/
def hasSubstr : List Char → List Char → Bool
  | [], pat => pat.isEmpty
  | a :: rest, pat => pat.isPrefixOf (a :: rest) || hasSubstr rest pat

/-- Python `pat in s`. -/
def strContains (s pat : String) : Bool :=
  hasSubstr s.data pat.data

/-- Python `str.zfill(w)`: left-pad with `'0'` up to width `w`, keeping a
leading sign in place. -/
def zfill (s : String) (w : ℕ) : String :=
  if w ≤ s.length then s
  else
    match s.data with
    | c :: rest =>
      if c = '-' ∨ c = '+' then
        String.mk (c :: (List.replicate (w - s.length) '0' ++ rest))
      else String.mk (List.replicate (w - s.length) '0' ++ s.data)
    | [] => String.mk (List.replicate w '0')

/-! ## Python numeric primitives -/

/-- Numeric value of a digit string (already validated by `allDigits`). -/
def digitsToNat (l : List Char) : ℕ :=
  l.foldl (fun acc c => 10 * acc + (c.toNat - 48)) 0

/-- Every character is an ASCII digit. -/
def allDigits (l : List Char) : Bool :=
  l.all Char.isDigit

/-- Python `int(s)`: optional surrounding whitespace, optional sign, then a
nonempty digit run; anything else raises `ValueError`, modelled as `none`.
(The 3.6 underscore-grouping extension is not modelled: the device protocol
never produces it.) -/
def pyIntOfString (s : String) : Option ℤ :=
  match (pyStrip s).data with
  | '+' :: rest =>
    if rest ≠ [] ∧ allDigits rest then some (digitsToNat rest : ℤ) else none
  | '-' :: rest =>
    if rest ≠ [] ∧ allDigits rest then some (-(digitsToNat rest : ℤ)) else none
  | rest =>
    if rest ≠ [] ∧ allDigits rest then some (digitsToNat rest : ℤ) else none

/-- Exponent part of a decimal literal: optional sign then a nonempty digit
run, with no surrounding whitespace. -/
def pyExpOfChars (l : List Char) : Option ℤ :=
  match l with
  | '+' :: rest =>
    if rest ≠ [] ∧ allDigits rest then some (digitsToNat rest : ℤ) else none
  | '-' :: rest =>
    if rest ≠ [] ∧ allDigits rest then some (-(digitsToNat rest : ℤ)) else none
  | rest =>
    if rest ≠ [] ∧ allDigits rest then some (digitsToNat rest : ℤ) else none

/-- Parse a Python `Decimal(s)` literal into
`(negative, coefficient, fraction length, exponent)`, so that the value is
`±coefficient / 10^fracLen * 10^exp`.  A string that does not match the
decimal grammar raises `InvalidOperation`, modelled as `none`.  The special
values `NaN`/`Infinity`, which have no rational counterpart, are outside
this model and also map to `none`; no device payload produces them. -/
def pyDecimalParse (s : String) : Option (Bool × ℕ × ℕ × ℤ) :=
  let l := (pyStrip s).data
  let signed : Bool × List Char :=
    match l with
    | '+' :: r => (false, r)
    | '-' :: r => (true, r)
    | r => (false, r)
  let neg := signed.1
  let pair := signed.2.span (fun c => !(c = 'e' || c = 'E'))
  let expval : Option ℤ :=
    match pair.2 with
    | [] => some 0
    | _ :: echars => pyExpOfChars echars
  match splitOnCharL '.' pair.1, expval with
  | [ip], some e =>
    if ip ≠ [] ∧ allDigits ip then some (neg, digitsToNat ip, 0, e) else none
  | [ip, fp], some e =>
    if (ip ≠ [] ∨ fp ≠ []) ∧ allDigits ip ∧ allDigits fp then
      some (neg, digitsToNat ip * 10 ^ fp.length + digitsToNat fp, fp.length, e)
    else none
  | _, _ => none

/-- Python `Decimal(s)` as an exact rational. -/
def pyDecimalOfString (s : String) : Option ℚ :=
  (pyDecimalParse s).map fun t =>
    (if t.1 then -(t.2.1 : ℚ) else (t.2.1 : ℚ)) / 10 ^ t.2.2.1 * (10 : ℚ) ^ t.2.2.2

/-- Python `int(x)` on a number: truncation toward zero. -/
def pyTrunc (q : ℚ) : ℤ :=
  if 0 ≤ q then ⌊q⌋ else -⌊-q⌋

/-- Round to the nearest integer, ties to the even neighbour — the
`ROUND_HALF_EVEN` default of the `decimal` context. -/
def roundHalfEven (q : ℚ) : ℤ :=
  if q - ⌊q⌋ = 1 / 2 then (if ⌊q⌋ % 2 = 0 then ⌊q⌋ else ⌊q⌋ + 1) else ⌊q + 1 / 2⌋

/-- Python `round(d, n)` on a `Decimal`, `n` possibly negative: round
half-even at the `n`-th decimal place. -/
def pyRoundDec (q : ℚ) (n : ℤ) : ℚ :=
  (roundHalfEven (q * (10 : ℚ) ^ n) : ℚ) * (10 : ℚ) ^ (-n)

/-- `math.floor(math.log10 q)` for `q > 0`, computed exactly: the unique
`k` with `10^k ≤ q < 10^(k+1)`.  Junk value `0` at `q ≤ 0`, where Python
raises; theorems guard that case. -/
def floorLog10 (q : ℚ) : ℤ :=
  if 1 ≤ q then (Nat.log 10 ⌊q⌋.toNat : ℤ)
  else if 0 < q then -(Nat.clog 10 ⌈1 / q⌉.toNat : ℤ)
  else 0

/-! ## `fa5usbdata.py` -/

/-- `make_gate_time_command(gatetime)`: the argument string (a number of
seconds, e.g. `"2"` from the `"2 sec."` combo-box entry) is parsed with
`float` and scaled to milliseconds; floats are modelled as exact rationals
(exact on every value the combo box offers). -/
def make_gate_time_command (gatetime : ℚ) : String :=
  "$A" ++ zfill (toString (pyTrunc (gatetime * 1000))) 5 ++ "*"

/-- The measurement categories of `fa5usbdata.Category`. -/
inductive Category where
  | POWER
  | FREQUENCY
  | UNKNOWN
deriving DecidableEq, Repr

/-- `FASettings`: `None` fields become `none`; `gate_time` starts at `0`. -/
structure FASettings where
  channel : Option String
  imp50 : Option Bool
  precision : Option Bool
  ext_reference_osc : Option Bool
  lpf : Option Bool
  gate_time : ℤ
deriving DecidableEq, Repr

/-- The `FASettings()` constructor with all arguments defaulted. -/
def FASettings.empty : FASettings :=
  ⟨none, none, none, none, none, 0⟩

/-- `FASettings.update_settings`: merge an incoming delta into the current
settings, field by field. -/
def FASettings.update_settings (self s : FASettings) : FASettings where
  channel := match s.channel with | some v => some v | none => self.channel
  imp50 := match s.imp50 with | some v => some v | none => self.imp50
  precision := match s.precision with | some v => some v | none => self.precision
  ext_reference_osc :=
    match s.ext_reference_osc with | some v => some v | none => self.ext_reference_osc
  lpf := match s.lpf with | some v => some v | none => self.lpf
  gate_time := if s.gate_time > 0 then s.gate_time else self.gate_time

/-- `channel_to_text(channel_char)`; the fall-through returns Python
`None`. -/
def channel_to_text (c : String) : Option String :=
  if c = "A" then some "Channel: 1"
  else if c = "B" then some "Channel: 2"
  else if c = "T" then some "Channel: Internal Clock"
  else none

/-- A `decimal.Decimal` argument as seen by `group_spaces`: its `str()`
form together with the outcome of the `!= 0` test. -/
structure PyDec where
  str : String
  nonzero : Bool

/-- The inner `chunk_string(s, size)` of `group_spaces`:
`re.findall('.{1,size}', s)` splits into chunks of at most `size`
characters from the left (the payloads are digit runs, so the
regex-dot/newline subtlety never arises). -/
def chunk_string (s : String) (size : ℕ) : List String :=
  (List.toChunks size s.data).map String.mk

/-- `group_spaces(decimal_number)`: the `integer_part, fractional_part =
decimal_str.split('.')` unpacking raises `ValueError` (modelled `none`)
unless the split yields exactly two parts. -/
def group_spaces (d : PyDec) : Option String :=
  if d.nonzero then
    match splitOnCharL '.' d.str.data with
    | [ip, fp] =>
      some (String.mk (String.intercalate " " (chunk_string (String.mk ip.reverse) 3)).data.reverse
        ++ "." ++ String.intercalate " " (chunk_string (String.mk fp) 3))
    | _ => none
  else some "0.0"

/-- `preprocess_string(string)`: classify one received line into
measurement payloads and a settings delta.  The only uncaught exception
path is the `int(...)` on `"AOK"`/`"GOK"` acknowledgement lines, modelled
as `none`. -/
def preprocess_string (string : String) : Option (List (Category × String) × FASettings) :=
  let s := pyStrip string
  if strContains s "OK" then
    if strContains s "POK" then
      some ([(Category.POWER, pySlice s 2 (-4))], FASettings.empty)
    else if takeLast s 3 = "AOK" ∨ takeLast s 3 = "GOK" then
      match pyIntOfString (pySlice s (-14) (-7)) with
      | some g => some ([], { FASettings.empty with gate_time := g })
      | none => none
    else if takeLast s 3 = "DOK" then
      some ([], { channel := channel_to_text (pySlice s 1 2)
                  imp50 := some (pySlice s 4 5 == "R")
                  precision := some (pySlice s 2 3 == "P")
                  ext_reference_osc := some (pySlice s 3 4 == "E")
                  lpf := some (pySlice s 5 6 == "L")
                  gate_time := 0 })
    else if takeLast s 3 = "EOK" then
      if pySlice s 0 3 = "LPF" then
        some ([], { FASettings.empty with lpf := some (s == "LPF ON EOK") })
      else some ([], FASettings.empty)
    else if takeLast s 3 = "COK" then
      if pySlice s 4 7 = "LPF" then
        some ([], { FASettings.empty with lpf := some (s == "CH1 LPF ON COK") })
      else some ([], FASettings.empty)
    else some ([], FASettings.empty)
  else
    if strContains s "$" then
      let sl := strSplit s ','
      let base := [(Category.FREQUENCY, pySlice (sl.headD "") 2 (-3))]
      if sl.length = 3 then some (base ++ [(Category.POWER, sl.getD 1 "")], FASettings.empty)
      else some (base, FASettings.empty)
    else some ([], FASettings.empty)

/-- The `MeasureLog` state; `time.time()` instants are passed in
explicitly as rationals. -/
structure MeasureLog where
  strings : List (String × ℚ)
  frequencies : List (ℚ × ℚ)
  power : List (ℚ × ℚ)
  start_time : ℚ
  reset_on_the_next_read : Bool
  latest_settings : FASettings
deriving DecidableEq, Repr

/-- `MeasureLog.__init__` at instant `now`. -/
def MeasureLog.init (now : ℚ) : MeasureLog :=
  ⟨[], [], [], now, true, FASettings.empty⟩

/-- `MeasureLog.reset(reset_time)` at instant `now`. -/
def MeasureLog.reset (self : MeasureLog) (now : ℚ) (reset_time : Bool) : MeasureLog :=
  { self with strings := [], frequencies := [], power := [],
              start_time := if reset_time then now else self.start_time,
              reset_on_the_next_read := false }

/-- `MeasureLog.reset_on_next_read()`. -/
def MeasureLog.reset_on_next_read (self : MeasureLog) : MeasureLog :=
  { self with reset_on_the_next_read := true }

/-- The measurement loop of `add_string`: each payload is parsed as a
`Decimal`; a payload that raises `InvalidOperation` is skipped (the
`except` arm) and the remaining ones are still processed; power values are
stored divided by ten. -/
def processMeasurements (msrs : List (Category × String)) (ts : ℚ)
    (freqs pows : List (ℚ × ℚ)) : List (ℚ × ℚ) × List (ℚ × ℚ) :=
  match msrs with
  | [] => (freqs, pows)
  | (cat, payload) :: rest =>
    match pyDecimalOfString payload with
    | none => processMeasurements rest ts freqs pows
    | some n =>
      if cat = Category.FREQUENCY then
        processMeasurements rest ts (freqs ++ [(n, ts)]) pows
      else if cat = Category.POWER then
        processMeasurements rest ts freqs (pows ++ [(n / 10, ts)])
      else processMeasurements rest ts freqs pows

/-- `MeasureLog.add_string(single_line_string)` at instant `now`: run the
pending reset if requested, preprocess, append the raw line, merge the
settings delta, and process the measurements.  `none` models the
`ValueError` escaping from `preprocess_string`. -/
def MeasureLog.add_string (self : MeasureLog) (line : String) (now : ℚ) : Option MeasureLog :=
  let self := if self.reset_on_the_next_read then self.reset now true else self
  let timestamp := now - self.start_time
  match preprocess_string line with
  | none => none
  | some (measurements, new_settings) =>
    let fp := processMeasurements measurements timestamp self.frequencies self.power
    some { self with strings := self.strings ++ [(line, timestamp)],
                     latest_settings := self.latest_settings.update_settings new_settings,
                     frequencies := fp.1, power := fp.2 }

/-- `MeasureLog._get_data(category)`. -/
def MeasureLog.get_data (self : MeasureLog) (category : String) : List (ℚ × ℚ) :=
  if category = "frequency" then self.frequencies
  else if category = "power" then self.power
  else []

/-- `MeasureLog.average_value(category)`: `sum(values) / len(values)`,
exact here (the 28-digit `Decimal` context never rounds the magnitudes in
play). -/
def MeasureLog.average_value (self : MeasureLog) (category : String) : ℚ :=
  let data := self.get_data category
  if data ≠ [] then (data.map Prod.fst).sum / data.length else 0

/-- `MeasureLog.get_freq_difference(freq, target_freq)`; `none` models the
`ValueError` from `math.log10(0)` when the chosen frequency is exactly
`-0.1` while a target is being auto-derived. -/
def MeasureLog.get_freq_difference (self : MeasureLog) (freq target_freq : ℚ) :
    Option (ℚ × ℚ × ℚ) :=
  let frequency :=
    if freq = 0 ∧ self.frequencies ≠ [] then self.average_value "frequency" else freq
  if target_freq = 0 ∧ frequency + 1 / 10 = 0 then none
  else
    let target_frequency :=
      if target_freq = 0 then
        pyRoundDec frequency (-(floorLog10 |frequency + 1 / 10|) + 3)
      else target_freq
    let difference := frequency - target_frequency
    let ppm := if target_frequency > 0 then 1000000 * difference / target_frequency else 0
    some (target_frequency, difference, ppm)

/-- The `header` literal of `copy_stats_to_clipboard`, as the Python
source concatenates it. -/
def stats_header : String :=
  "Notes,Start Time,Stop Time,Target Freq,Average Freq (Hz),Difference (mHz),STDev (mHz),Gate Time,"
    ++ "Pk-Pk (mHz), Power (dBm),Minimum,Maximum,Channel,Count,50 Ohm,ppm"

/-- The statistics row of `copy_stats_to_clipboard`, abstracted over the
sixteen rendered fields in the order the source appends them: the
processed notes, then start time, stop time, target frequency, average
frequency, difference, standard deviation, gate time, peak-to-peak, power,
minimum, maximum, channel, count, impedance flag and ppm. -/
def stats_text (notes start_s stop_s target_s avg_s diff_s stdev_s gate_s
    pkpk_s power_s min_s max_s chan_s count_s imp_s ppm_s : String) : String :=
  notes ++ "," ++ start_s ++ "," ++ stop_s ++ "," ++ target_s ++ "," ++ avg_s
    ++ "," ++ diff_s ++ "," ++ stdev_s ++ "," ++ gate_s ++ "," ++ pkpk_s
    ++ "," ++ power_s ++ "," ++ min_s ++ "," ++ max_s ++ "," ++ chan_s
    ++ "," ++ count_s ++ "," ++ imp_s ++ "," ++ ppm_s

/-! ## `ui_main.py` command queue -/

/-- The module-level scheduler state of `ui_main.py`: the `command_queue`
list and the `waiting_for_command` flag (`true` encodes "idle, no command
awaiting an answer"). -/
structure CommandQueueState where
  command_queue : List String
  waiting_for_command : Bool
deriving DecidableEq

/-- `MainWindow.send_to_command_buffer(command)`: append to the FIFO
tail. -/
def send_to_command_buffer (st : CommandQueueState) (command : String) : CommandQueueState :=
  { st with command_queue := st.command_queue ++ [command] }

/-- `MainWindow.send_command()` with no literal argument: pop the head of
the queue (`command_queue.pop(0)`; the popped command is the one written
to the serial port), or mark the scheduler idle when the queue is
empty. -/
def send_command (st : CommandQueueState) : CommandQueueState × Option String :=
  match st.command_queue with
  | [] => ({ st with waiting_for_command := true }, none)
  | c :: rest => (⟨rest, false⟩, some c)

/-- One scheduler interaction: a button handler enqueues, or an
acknowledgement triggers a dequeue-and-send. -/
inductive QueueOp where
  | enqueue (c : String)
  | dequeue
deriving DecidableEq

/-- Run a sequence of interactions, collecting the commands actually sent
in order. -/
def runOps (st : CommandQueueState) : List QueueOp → CommandQueueState × List String
  | [] => (st, [])
  | QueueOp.enqueue c :: ops => runOps (send_to_command_buffer st c) ops
  | QueueOp.dequeue :: ops =>
    let r := send_command st
    let rest := runOps r.1 ops
    (rest.1, r.2.toList ++ rest.2)

/-- The commands enqueued by a sequence of interactions, in order. -/
def enqueuedOf : List QueueOp → List String
  | [] => []
  | QueueOp.enqueue c :: ops => c :: enqueuedOf ops
  | QueueOp.dequeue :: ops => enqueuedOf ops

/-! ## Spec-side definitions (for refinement comparison) -/

/-- The export header exactly as the spec states it, for comparison with
`stats_header`: `"...,Pk-Pk (mHz),Power (dBm),..."` with no space after
the comma. -/
def claimed_stats_header : String :=
  "Notes,Start Time,Stop Time,Target Freq,Average Freq (Hz),Difference (mHz),STDev (mHz),Gate Time,Pk-Pk (mHz),Power (dBm),Minimum,Maximum,Channel,Count,50 Ohm,ppm"

/-- `get_freq_difference` as the spec describes it: chosen frequency is
the running mean when `freq = 0` and samples exist, else `freq`; target is
auto-derived by rounding to `-floor(log10(|frequency + 0.1|)) + 3` decimal
places when `target_freq = 0`, else `target_freq`; difference is
`frequency - target`; ppm is `1000000 * difference / target` when
`target > 0`, else `0`. -/
def freqDifferenceClaim (ml : MeasureLog) (freq target_freq : ℚ) : ℚ × ℚ × ℚ :=
  let frequency :=
    if freq = 0 ∧ ml.frequencies ≠ [] then ml.average_value "frequency" else freq
  let target :=
    if target_freq = 0 then pyRoundDec frequency (-(floorLog10 |frequency + 1 / 10|) + 3)
    else target_freq
  let difference := frequency - target
  (target, difference, if target > 0 then 1000000 * difference / target else 0)

/-! ## Helper lemmas -/

/-- A substring of the right part is a substring of the whole. -/
theorem hasSubstr_append_left (l₁ l₂ pat : List Char)
    (h : hasSubstr l₂ pat = true) : hasSubstr (l₁ ++ l₂) pat = true := by
  induction l₁ with
  | nil => simpa using h
  | cons a rest ih => simp [hasSubstr, ih]

/-- A line whose last three characters are a given string contains every
substring of those three characters. -/
theorem strContains_of_takeLast (s t pat : String) (h : takeLast s 3 = t)
    (hc : hasSubstr t.data pat.data = true) : strContains s pat = true := by
  have hdata : s.data.drop (s.data.length - 3) = t.data := by
    have := congrArg String.data h
    simpa [takeLast] using this
  have hsplit : s.data = s.data.take (s.data.length - 3) ++ s.data.drop (s.data.length - 3) :=
    (List.take_append_drop _ _).symm
  rw [strContains, hsplit, hdata]
  exact hasSubstr_append_left _ _ _ hc

/-- `splitOnCharL` never returns the empty list. -/
theorem splitOnCharL_ne_nil (c : Char) (l : List Char) : splitOnCharL c l ≠ [] := by
  cases l with
  | nil => simp [splitOnCharL]
  | cons a rest =>
    simp only [splitOnCharL]
    cases h : splitOnCharL c rest with
    | nil => simp
    | cons g gs =>
      by_cases hac : a = c <;> simp [hac]

/-- The number of split groups is one more than the separator count. -/
theorem splitOnCharL_length (c : Char) (l : List Char) :
    (splitOnCharL c l).length = l.count c + 1 := by
  induction l with
  | nil => simp [splitOnCharL]
  | cons a rest ih =>
    simp only [splitOnCharL]
    cases h : splitOnCharL c rest with
    | nil => exact absurd h (splitOnCharL_ne_nil c rest)
    | cons g gs =>
      by_cases hac : a = c
      · subst hac
        simp [List.count_cons, h] at ih ⊢
        omega
      · have hbeq : (a == c) = false := by simp [hac]
        simp [hac, List.count_cons, hbeq, h] at ih ⊢
        omega

/-- Splitting a list that does not contain the separator yields the list
itself as the only group. -/
theorem splitOnCharL_not_mem (c : Char) (l : List Char) (h : c ∉ l) :
    splitOnCharL c l = [l] := by
  induction l with
  | nil => simp [splitOnCharL]
  | cons a rest ih =>
    have hac : a ≠ c := fun hac => h (hac ▸ List.mem_cons_self a rest)
    have hrest : c ∉ rest := fun hm => h (List.mem_cons_of_mem a hm)
    simp [splitOnCharL, ih hrest, hac]

/-- Splitting at the first separator occurrence peels off the first
group. -/
theorem splitOnCharL_append (c : Char) (l₁ l₂ : List Char) (h : c ∉ l₁) :
    splitOnCharL c (l₁ ++ c :: l₂) = l₁ :: splitOnCharL c l₂ := by
  induction l₁ with
  | nil =>
    simp only [List.nil_append, splitOnCharL]
    cases hs : splitOnCharL c l₂ with
    | nil => exact absurd hs (splitOnCharL_ne_nil c l₂)
    | cons g gs => simp
  | cons a rest ih =>
    have hac : a ≠ c := fun hac => h (hac ▸ List.mem_cons_self a rest)
    have hrest : c ∉ rest := fun hm => h (List.mem_cons_of_mem a hm)
    simp only [List.cons_append, splitOnCharL, List.append_eq]
    rw [ih hrest]
    simp [hac]

/-! ## Claim theorems -/

/-- C2 counterexample: at a gate time of 2000 interpreted as milliseconds,
`make_gate_time_command` does not return `"$A02000*"` (the 5-digit
zero-padded rendering of its argument) but `"$A2000000*"`: the function
multiplies its argument by 1000, i.e. it takes seconds, not
milliseconds. -/
theorem c2_counterexample :
    make_gate_time_command 2000 = "$A2000000*" ∧
      make_gate_time_command 2000 ≠ "$A" ++ zfill (toString (2000 : ℤ)) 5 ++ "*" := by
  have h : pyTrunc ((2000 : ℚ) * 1000) = 2000000 := by
    norm_num [pyTrunc]
  constructor
  · rw [make_gate_time_command, h]; decide
  · rw [make_gate_time_command, h]; decide

/-- C2 (amended): for a gate time given in seconds, the command is `"$A"`
followed by the millisecond count `g * 1000` (truncated to an integer)
zero-padded to at least five digits, followed by `"*"`; on the gate times
the UI offers this reproduces the fixed gate-time commands, e.g. 2 s
(2000 ms) serializes to `"$A02000*"`. -/
theorem c2_gate_time_command_seconds :
    (∀ g : ℚ, make_gate_time_command g = "$A" ++ zfill (toString (pyTrunc (g * 1000))) 5 ++ "*") ∧
      make_gate_time_command (1 / 10) = "$A00100*" ∧
      make_gate_time_command 1 = "$A01000*" ∧
      make_gate_time_command 2 = "$A02000*" ∧
      make_gate_time_command 20 = "$A20000*" := by
  refine ⟨fun g => rfl, ?_, ?_, ?_, ?_⟩
  · have h : pyTrunc ((1 : ℚ) / 10 * 1000) = 100 := by norm_num [pyTrunc]
    rw [make_gate_time_command, h]; decide
  · have h : pyTrunc ((1 : ℚ) * 1000) = 1000 := by norm_num [pyTrunc]
    rw [make_gate_time_command, h]; decide
  · have h : pyTrunc ((2 : ℚ) * 1000) = 2000 := by norm_num [pyTrunc]
    rw [make_gate_time_command, h]; decide
  · have h : pyTrunc ((20 : ℚ) * 1000) = 20000 := by norm_num [pyTrunc]
    rw [make_gate_time_command, h]; decide

/-- C4: `update_settings` overwrites a field only when the delta carries a
present value for it, and `gate_time` only when the delta's value is
strictly positive; absent fields keep their prior value. -/
theorem c4_update_settings_frame (cur s : FASettings) :
    ((s.channel = none → (cur.update_settings s).channel = cur.channel) ∧
      (∀ v, s.channel = some v → (cur.update_settings s).channel = some v)) ∧
    ((s.imp50 = none → (cur.update_settings s).imp50 = cur.imp50) ∧
      (∀ v, s.imp50 = some v → (cur.update_settings s).imp50 = some v)) ∧
    ((s.precision = none → (cur.update_settings s).precision = cur.precision) ∧
      (∀ v, s.precision = some v → (cur.update_settings s).precision = some v)) ∧
    ((s.ext_reference_osc = none →
        (cur.update_settings s).ext_reference_osc = cur.ext_reference_osc) ∧
      (∀ v, s.ext_reference_osc = some v →
        (cur.update_settings s).ext_reference_osc = some v)) ∧
    ((s.lpf = none → (cur.update_settings s).lpf = cur.lpf) ∧
      (∀ v, s.lpf = some v → (cur.update_settings s).lpf = some v)) ∧
    (s.gate_time ≤ 0 → (cur.update_settings s).gate_time = cur.gate_time) ∧
    (0 < s.gate_time → (cur.update_settings s).gate_time = s.gate_time) := by
  refine ⟨⟨fun h => ?_, fun v h => ?_⟩, ⟨fun h => ?_, fun v h => ?_⟩,
    ⟨fun h => ?_, fun v h => ?_⟩, ⟨fun h => ?_, fun v h => ?_⟩,
    ⟨fun h => ?_, fun v h => ?_⟩, fun h => ?_, fun h => ?_⟩
  case _ => simp [FASettings.update_settings, h]
  case _ => simp [FASettings.update_settings, h]
  case _ => simp [FASettings.update_settings, h]
  case _ => simp [FASettings.update_settings, h]
  case _ => simp [FASettings.update_settings, h]
  case _ => simp [FASettings.update_settings, h]
  case _ => simp [FASettings.update_settings, h]
  case _ => simp [FASettings.update_settings, h]
  case _ => simp [FASettings.update_settings, h]
  case _ => simp [FASettings.update_settings, h]
  case _ =>
    simp only [FASettings.update_settings]
    rw [if_neg (not_lt.mpr h)]
  case _ =>
    simp only [FASettings.update_settings]
    rw [if_pos h]

/-- C4 witness: a concrete merge in which the delta's channel is absent
keeps the current channel. -/
theorem c4_update_settings_frame_witness :
    FASettings.empty.channel = none ∧
      ((⟨some "Channel: 1", none, none, none, none, 0⟩ : FASettings).update_settings
        FASettings.empty).channel = some "Channel: 1" :=
  ⟨rfl, (c4_update_settings_frame ⟨some "Channel: 1", none, none, none, none, 0⟩
    FASettings.empty).1.1 rfl⟩

/-- C8: the command queue is strictly FIFO.  Enqueue (a total function:
it always succeeds) appends to the tail; under any interleaving of
enqueues and dequeues starting from the empty queue, the commands sent
followed by the commands still queued are exactly the enqueued commands in
order — so commands are sent in enqueue order; dequeuing from an empty
queue leaves the queue empty, sends nothing, and sets the
`waiting_for_command` flag (idle, nothing outstanding) rather than
failing; dequeuing from a nonempty queue removes the head and sends it. -/
theorem c8_command_queue_fifo :
    (∀ st c, send_to_command_buffer st c =
      { st with command_queue := st.command_queue ++ [c] }) ∧
    (∀ ops st, (runOps st ops).2 ++ (runOps st ops).1.command_queue =
      st.command_queue ++ enqueuedOf ops) ∧
    (∀ w : Bool, send_command ⟨[], w⟩ = (⟨[], true⟩, none)) ∧
    (∀ c rest w, send_command ⟨c :: rest, w⟩ = (⟨rest, false⟩, some c)) := by
  refine ⟨fun st c => rfl, ?_, fun w => rfl, fun c rest w => rfl⟩
  intro ops
  induction ops with
  | nil => intro st; simp [runOps, enqueuedOf]
  | cons op ops ih =>
    intro st
    cases op with
    | enqueue c =>
      simp only [runOps, enqueuedOf, ih, send_to_command_buffer]
      simp
    | dequeue =>
      cases hq : st.command_queue with
      | nil =>
        simp only [runOps, enqueuedOf, send_command, hq]
        simpa using ih _
      | cons c rest =>
        simp only [runOps, enqueuedOf, send_command, hq]
        simp only [Option.toList, List.cons_append, List.nil_append]
        rw [ih ⟨rest, false⟩]

/-- C10: `group_spaces` is not total.  A nonzero decimal whose string form
contains no decimal point makes the two-way unpacking of `split('.')`
raise (`none`); the zero branch returns `"0.0"`; a string form with
exactly one decimal point returns normally; and a normal return implies
the input was zero or its string form contained a decimal point. -/
theorem c10_group_spaces_raises (d : PyDec) :
    (d.nonzero = true → ('.' : Char) ∉ d.str.data → group_spaces d = none) ∧
    (d.nonzero = false → group_spaces d = some "0.0") ∧
    (d.str.data.count '.' = 1 → (group_spaces d).isSome = true) ∧
    ((group_spaces d).isSome = true → d.nonzero = false ∨ ('.' : Char) ∈ d.str.data) := by
  refine ⟨fun h1 h2 => ?_, fun h1 => ?_, fun h1 => ?_, fun h1 => ?_⟩
  · simp [group_spaces, h1, splitOnCharL_not_mem _ _ h2]
  · simp [group_spaces, h1]
  · by_cases hz : d.nonzero
    · have hlen : (splitOnCharL '.' d.str.data).length = 2 := by
        rw [splitOnCharL_length, h1]
      match hs : splitOnCharL '.' d.str.data with
      | [ip, fp] => simp [group_spaces, hz, hs]
      | [] => exact absurd (hs ▸ hlen) (by simp)
      | [x] => exact absurd (hs ▸ hlen) (by simp)
      | x :: y :: z :: r => exact absurd (hs ▸ hlen) (by simp)
    · simp [group_spaces, hz]
  · by_cases hz : d.nonzero
    · by_cases hm : ('.' : Char) ∈ d.str.data
      · exact Or.inr hm
      · exfalso
        have hnone : group_spaces d = none := by
          simp [group_spaces, hz, splitOnCharL_not_mem _ _ hm]
        rw [hnone] at h1
        simp at h1
    · exact Or.inl (by simpa using hz)

/-- C10 witness: `Decimal('5')` — nonzero, string form `"5"` with no
decimal point — makes `group_spaces` raise. -/
theorem c10_group_spaces_raises_witness :
    (PyDec.mk "5" true).nonzero = true ∧ ('.' : Char) ∉ ("5" : String).data ∧
      group_spaces (PyDec.mk "5" true) = none :=
  ⟨rfl, by decide, (c10_group_spaces_raises (PyDec.mk "5" true)).1 rfl (by decide)⟩

/-- C9 counterexample: the header literal written by
`copy_stats_to_clipboard` is not the exact comma-separated string the
claim states — the code has a stray space, `"...,Pk-Pk (mHz), Power
(dBm),..."`. -/
theorem c9_counterexample : stats_header ≠ claimed_stats_header := by
  decide

set_option maxRecDepth 4000 in
/-- C9 (amended): the header is exactly the claimed schema except for a
space before `Power (dBm)`; split on commas it lists the sixteen field
names in the claimed order, and the data row, split on commas, is exactly
the sixteen rendered fields in that same order (whenever the rendered
fields themselves are comma-free). -/
theorem c9_export_schema (notes start_s stop_s target_s avg_s diff_s stdev_s gate_s
    pkpk_s power_s min_s max_s chan_s count_s imp_s ppm_s : String)
    (h0 : (',' : Char) ∉ notes.data) (h1 : (',' : Char) ∉ start_s.data)
    (h2 : (',' : Char) ∉ stop_s.data) (h3 : (',' : Char) ∉ target_s.data)
    (h4 : (',' : Char) ∉ avg_s.data) (h5 : (',' : Char) ∉ diff_s.data)
    (h6 : (',' : Char) ∉ stdev_s.data) (h7 : (',' : Char) ∉ gate_s.data)
    (h8 : (',' : Char) ∉ pkpk_s.data) (h9 : (',' : Char) ∉ power_s.data)
    (h10 : (',' : Char) ∉ min_s.data) (h11 : (',' : Char) ∉ max_s.data)
    (h12 : (',' : Char) ∉ chan_s.data) (h13 : (',' : Char) ∉ count_s.data)
    (h14 : (',' : Char) ∉ imp_s.data) (h15 : (',' : Char) ∉ ppm_s.data) :
    stats_header = "Notes,Start Time,Stop Time,Target Freq,Average Freq (Hz),Difference (mHz),STDev (mHz),Gate Time,Pk-Pk (mHz), Power (dBm),Minimum,Maximum,Channel,Count,50 Ohm,ppm" ∧
    strSplit stats_header ',' =
      ["Notes", "Start Time", "Stop Time", "Target Freq", "Average Freq (Hz)",
        "Difference (mHz)", "STDev (mHz)", "Gate Time", "Pk-Pk (mHz)", " Power (dBm)",
        "Minimum", "Maximum", "Channel", "Count", "50 Ohm", "ppm"] ∧
    strSplit (stats_text notes start_s stop_s target_s avg_s diff_s stdev_s gate_s
        pkpk_s power_s min_s max_s chan_s count_s imp_s ppm_s) ',' =
      [notes, start_s, stop_s, target_s, avg_s, diff_s, stdev_s, gate_s,
        pkpk_s, power_s, min_s, max_s, chan_s, count_s, imp_s, ppm_s] := by
  refine ⟨by decide, by decide, ?_⟩
  have hc : (("," : String)).data = [','] := rfl
  rw [strSplit, stats_text]
  simp only [String.data_append, hc, List.singleton_append, List.append_assoc,
    List.cons_append, List.nil_append]
  rw [splitOnCharL_append _ _ _ h0, splitOnCharL_append _ _ _ h1,
    splitOnCharL_append _ _ _ h2, splitOnCharL_append _ _ _ h3,
    splitOnCharL_append _ _ _ h4, splitOnCharL_append _ _ _ h5,
    splitOnCharL_append _ _ _ h6, splitOnCharL_append _ _ _ h7,
    splitOnCharL_append _ _ _ h8, splitOnCharL_append _ _ _ h9,
    splitOnCharL_append _ _ _ h10, splitOnCharL_append _ _ _ h11,
    splitOnCharL_append _ _ _ h12, splitOnCharL_append _ _ _ h13,
    splitOnCharL_append _ _ _ h14, splitOnCharL_not_mem _ _ h15]
  simp

/-- C9 witness: the amended schema theorem at concrete comma-free
fields. -/
theorem c9_export_schema_witness :
    strSplit (stats_text "note" "t0" "t1" "10" "10.1" "0.1" "0.0" "1.0" "0.2"
        "-7.3" "9.9" "10.2" "Channel: 1" "42" "True" "0.01") ',' =
      ["note", "t0", "t1", "10", "10.1", "0.1", "0.0", "1.0", "0.2",
        "-7.3", "9.9", "10.2", "Channel: 1", "42", "True", "0.01"] :=
  (c9_export_schema "note" "t0" "t1" "10" "10.1" "0.1" "0.0" "1.0" "0.2"
    "-7.3" "9.9" "10.2" "Channel: 1" "42" "True" "0.01"
    (by decide) (by decide) (by decide) (by decide) (by decide) (by decide)
    (by decide) (by decide) (by decide) (by decide) (by decide) (by decide)
    (by decide) (by decide) (by decide) (by decide)).2.2

/-- C5 counterexample: the line `"AOK"` — a well-formed acknowledgement
suffix with a malformed (empty) gate-time field — makes the unprotected
`int(...)` in `preprocess_string` raise, and the exception propagates out
of `add_string`; processing is aborted, contradicting the claim that
malformed numeric content never raises. -/
theorem c5_counterexample :
    preprocess_string "AOK" = none ∧
      MeasureLog.add_string (MeasureLog.init 0) "AOK" 1 = none := by
  constructor <;> decide

/-- C5 (amended): a measurement payload that fails to parse as a decimal
is dropped and the remaining measurements of the line are still processed,
and `add_string` raises exactly when `preprocess_string` does — namely on
an `"AOK"`/`"GOK"` acknowledgement line (not containing `"POK"`) whose
gate-time slice fails integer parsing.  The gate-time `int(...)` is
unprotected, so malformed numeric content in it does abort processing. -/
theorem c5_decimal_failures_dropped :
    (∀ line : String, preprocess_string line = none ↔
      (strContains (pyStrip line) "POK" = false ∧
        (takeLast (pyStrip line) 3 = "AOK" ∨ takeLast (pyStrip line) 3 = "GOK") ∧
        pyIntOfString (pySlice (pyStrip line) (-14) (-7)) = none)) ∧
    (∀ (ml : MeasureLog) (line : String) (now : ℚ),
      ml.add_string line now = none ↔ preprocess_string line = none) ∧
    (∀ (pre post : List (Category × String)) (cat : Category) (bad : String) (ts : ℚ)
      (fs ps : List (ℚ × ℚ)), pyDecimalOfString bad = none →
      processMeasurements (pre ++ (cat, bad) :: post) ts fs ps =
        processMeasurements (pre ++ post) ts fs ps) := by
  refine ⟨?_, ?_, ?_⟩
  · intro line
    constructor
    · intro h
      by_cases hOK : strContains (pyStrip line) "OK" = true
      · by_cases hPOK : strContains (pyStrip line) "POK" = true
        · rw [preprocess_string, if_pos hOK, if_pos hPOK] at h
          simp at h
        · by_cases hAG : takeLast (pyStrip line) 3 = "AOK" ∨ takeLast (pyStrip line) 3 = "GOK"
          · refine ⟨by simpa using hPOK, hAG, ?_⟩
            rw [preprocess_string, if_pos hOK, if_neg hPOK, if_pos hAG] at h
            cases hi : pyIntOfString (pySlice (pyStrip line) (-14) (-7)) with
            | none => rfl
            | some g => rw [hi] at h; simp at h
          · rw [preprocess_string, if_pos hOK, if_neg hPOK, if_neg hAG] at h
            by_cases hDOK : takeLast (pyStrip line) 3 = "DOK"
            · rw [if_pos hDOK] at h; simp at h
            · rw [if_neg hDOK] at h
              by_cases hEOK : takeLast (pyStrip line) 3 = "EOK"
              · rw [if_pos hEOK] at h
                by_cases hLPF : pySlice (pyStrip line) 0 3 = "LPF"
                · rw [if_pos hLPF] at h; simp at h
                · rw [if_neg hLPF] at h; simp at h
              · rw [if_neg hEOK] at h
                by_cases hCOK : takeLast (pyStrip line) 3 = "COK"
                · rw [if_pos hCOK] at h
                  by_cases hLPF2 : pySlice (pyStrip line) 4 7 = "LPF"
                  · rw [if_pos hLPF2] at h; simp at h
                  · rw [if_neg hLPF2] at h; simp at h
                · rw [if_neg hCOK] at h; simp at h
      · rw [preprocess_string, if_neg hOK] at h
        by_cases hD : strContains (pyStrip line) "$" = true
        · rw [if_pos hD] at h
          by_cases hlen : (strSplit (pyStrip line) ',').length = 3
          · simp only [hlen] at h
            simp at h
          · simp only [if_neg hlen] at h
            simp at h
        · rw [if_neg hD] at h; simp at h
    · rintro ⟨hPOK, hAG, hint⟩
      have hOK : strContains (pyStrip line) "OK" = true := by
        cases hAG with
        | inl hA => exact strContains_of_takeLast _ _ _ hA (by decide)
        | inr hG => exact strContains_of_takeLast _ _ _ hG (by decide)
      rw [preprocess_string, if_pos hOK, if_neg (by simp [hPOK]), if_pos hAG, hint]
  · intro ml line now
    rw [MeasureLog.add_string]
    cases hp : preprocess_string line with
    | none => simp
    | some p => cases p with
      | mk measurements new_settings => simp
  · intro pre post cat bad ts fs ps hbad
    induction pre generalizing fs ps with
    | nil => simp [processMeasurements, hbad]
    | cons m rest ih =>
      cases m with
      | mk c payload =>
        rw [List.cons_append, processMeasurements, List.cons_append, processMeasurements]
        cases hp : pyDecimalOfString payload with
        | none => exact ih _ _
        | some n =>
          by_cases hcf : c = Category.FREQUENCY
          · simp only [hcf, if_pos rfl]
            exact ih _ _
          · by_cases hcp : c = Category.POWER
            · simp only [hcf, hcp, if_neg, if_pos rfl, reduceIte]
              exact ih _ _
            · simp only [hcf, hcp, reduceIte]
              exact ih _ _

/-- C5 witness: a malformed payload in the middle of a measurement list
is skipped while the remaining measurement is still processed. -/
theorem c5_decimal_failures_dropped_witness :
    pyDecimalOfString "xx" = none ∧
      processMeasurements ([] ++ (Category.FREQUENCY, "xx") :: [(Category.FREQUENCY, "1.5")])
          0 [] [] =
        processMeasurements ([] ++ [(Category.FREQUENCY, "1.5")]) 0 [] [] :=
  ⟨by decide, c5_decimal_failures_dropped.2.2 [] [(Category.FREQUENCY, "1.5")]
    Category.FREQUENCY "xx" 0 [] [] (by decide)⟩

/-- C3 counterexample: the line `"$POKDOK"` ends in `"DOK"` but contains
`"POK"`, and the `'POK' in line` test takes precedence, so the decoder
returns a Power measurement and no decoded settings delta — the claim's
universal statement over lines ending in `"DOK"` fails. -/
theorem c3_counterexample :
    takeLast (pyStrip "$POKDOK") 3 = "DOK" ∧
      preprocess_string "$POKDOK" = some ([(Category.POWER, "O")], FASettings.empty) := by
  constructor <;> decide

/-- C3 (amended): for every line whose stripped form ends in `"DOK"` and
does not contain `"POK"`, the decoder returns no measurement and the
positionally decoded settings delta (channel from index 1, precision
`index 2 = 'P'`, external reference `index 3 = 'E'`, 50-ohm impedance
`index 4 = 'R'`, low-pass filter `index 5 = 'L'`); on the scenario line
the delta is channel "Channel: 1", precision true, reference false,
impedance true, lpf false. -/
theorem c3_dok_settings_decode (s : String)
    (hd : takeLast (pyStrip s) 3 = "DOK")
    (hp : strContains (pyStrip s) "POK" = false) :
    preprocess_string s = some ([],
      { channel := channel_to_text (pySlice (pyStrip s) 1 2)
        imp50 := some (pySlice (pyStrip s) 4 5 == "R")
        precision := some (pySlice (pyStrip s) 2 3 == "P")
        ext_reference_osc := some (pySlice (pyStrip s) 3 4 == "E")
        lpf := some (pySlice (pyStrip s) 5 6 == "L")
        gate_time := 0 }) ∧
    preprocess_string "$APIR ,0009999999.999870000,+00127,DOK" = some ([],
      ⟨some "Channel: 1", some true, some true, some false, some false, 0⟩) := by
  constructor
  · have hOK : strContains (pyStrip s) "OK" = true :=
      strContains_of_takeLast _ _ _ hd (by decide)
    have hAG : ¬(takeLast (pyStrip s) 3 = "AOK" ∨ takeLast (pyStrip s) 3 = "GOK") := by
      simp [hd]
    rw [preprocess_string, if_pos hOK, if_neg (by simp [hp]), if_neg hAG, if_pos hd]
  · decide

/-- C3 witness: the amended decode theorem applied to the scenario line
`"$APIR ,0009999999.999870000,+00127,DOK"`. -/
theorem c3_dok_settings_decode_witness :
    takeLast (pyStrip "$APIR ,0009999999.999870000,+00127,DOK") 3 = "DOK" ∧
      preprocess_string "$APIR ,0009999999.999870000,+00127,DOK" = some ([],
        ⟨some "Channel: 1", some true, some true, some false, some false, 0⟩) :=
  ⟨by decide, (c3_dok_settings_decode "$APIR ,0009999999.999870000,+00127,DOK"
    (by decide) (by decide)).2⟩

/-- C7: when the reset-pending flag is set, `add_string` behaves exactly
as on the freshly reset log (all three sequences cleared, start instant
moved to `now`, pending flag cleared), and the triggering line itself is
still appended: afterwards the raw-line sequence is exactly that line
with timestamp `0`. -/
theorem c7_reset_pending (ml : MeasureLog) (line : String) (now : ℚ) (ml' : MeasureLog)
    (h1 : ml.reset_on_the_next_read = true)
    (h2 : ml.add_string line now = some ml') :
    ml.add_string line now = (ml.reset now true).add_string line now ∧
    (ml.reset now true).strings = [] ∧
    (ml.reset now true).frequencies = [] ∧
    (ml.reset now true).power = [] ∧
    (ml.reset now true).reset_on_the_next_read = false ∧
    ml'.strings = [(line, 0)] ∧
    ml'.reset_on_the_next_read = false ∧
    ml'.start_time = now := by
  have hside : ml.add_string line now = (ml.reset now true).add_string line now := by
    rw [MeasureLog.add_string, MeasureLog.add_string]
    simp [h1, MeasureLog.reset]
  refine ⟨hside, rfl, rfl, rfl, rfl, ?_⟩
  rw [hside] at h2
  rw [MeasureLog.add_string] at h2
  simp only [MeasureLog.reset, Bool.false_eq_true, if_false] at h2
  cases hpre : preprocess_string line with
  | none => rw [hpre] at h2; exact absurd h2 (by simp)
  | some p =>
    cases p with
    | mk measurements new_settings =>
      rw [hpre] at h2
      simp only [Option.some.injEq] at h2
      rw [← h2]
      simp

/-- C7 witness: a pending reset on a concrete log, then one appended
line: the raw-line sequence afterwards is exactly that line. -/
theorem c7_reset_pending_witness :
    (MeasureLog.init 3).reset_on_the_next_read = true ∧
      (MeasureLog.mk [("x", 0)] [] [] 5 false FASettings.empty).strings = [("x", 0)] := by
  have hp : preprocess_string "x" = some ([], FASettings.empty) := by decide
  have h2 : (MeasureLog.init 3).add_string "x" 5 =
      some (MeasureLog.mk [("x", 0)] [] [] 5 false FASettings.empty) := by
    rw [MeasureLog.add_string]
    simp [MeasureLog.init, MeasureLog.reset, hp, processMeasurements,
      FASettings.update_settings, FASettings.empty]
  exact ⟨rfl, (c7_reset_pending (MeasureLog.init 3) "x" 5 _ rfl h2).2.2.2.2.2.1⟩

/-- C1: a stripped line that does not contain `"OK"` but contains `'$'`
is split on commas; the first field with its 2-character prefix and
3-character suffix stripped is a Frequency payload, and when the split
yields exactly 3 fields the second field is a Power payload; on the
scenario line `add_string` stores one Frequency sample and one Power
sample of `129/10 = 12.9` (the power payload divided by ten). -/
theorem c1_stream_line_decode (s : String)
    (h1 : strContains (pyStrip s) "OK" = false)
    (h2 : strContains (pyStrip s) "$" = true) :
    preprocess_string s = some (
      (Category.FREQUENCY, pySlice ((strSplit (pyStrip s) ',').headD "") 2 (-3)) ::
        (if (strSplit (pyStrip s) ',').length = 3 then
          [(Category.POWER, (strSplit (pyStrip s) ',').getD 1 "")]
        else []),
      FASettings.empty) ∧
    (MeasureLog.init 5).add_string "$A0010000000.001000001,+00129," 7 =
      some (MeasureLog.mk [("$A0010000000.001000001,+00129,", 0)]
        [(10000000001 / 1000, 0)] [(129 / 10, 0)] 7 false FASettings.empty) := by
  constructor
  · rw [preprocess_string, if_neg (by simp [h1]), if_pos h2]
    by_cases hlen : (strSplit (pyStrip s) ',').length = 3
    · simp [hlen]
    · simp [hlen]
  · have hpre : preprocess_string "$A0010000000.001000001,+00129," =
        some ([(Category.FREQUENCY, "0010000000.001000"), (Category.POWER, "+00129")],
          FASettings.empty) := by decide
    have hfreq : pyDecimalOfString "0010000000.001000" = some (10000000001 / 1000) := by
      have hp : pyDecimalParse "0010000000.001000" = some (false, 10000000001000, 6, 0) := by
        decide
      rw [pyDecimalOfString, hp]
      norm_num
    have hpow : pyDecimalOfString "+00129" = some 129 := by
      have hp : pyDecimalParse "+00129" = some (false, 129, 0, 0) := by decide
      rw [pyDecimalOfString, hp]
      norm_num
    rw [MeasureLog.add_string]
    simp [MeasureLog.init, MeasureLog.reset, hpre, processMeasurements, hfreq, hpow,
      FASettings.update_settings, FASettings.empty]

/-- C1 witness: the decode theorem applied to the scenario line. -/
theorem c1_stream_line_decode_witness :
    strContains (pyStrip "$A0010000000.001000001,+00129,") "OK" = false ∧
      strContains (pyStrip "$A0010000000.001000001,+00129,") "$" = true ∧
      preprocess_string "$A0010000000.001000001,+00129," = some (
        (Category.FREQUENCY,
          pySlice ((strSplit (pyStrip "$A0010000000.001000001,+00129,") ',').headD "") 2 (-3)) ::
          (if (strSplit (pyStrip "$A0010000000.001000001,+00129,") ',').length = 3 then
            [(Category.POWER, (strSplit (pyStrip "$A0010000000.001000001,+00129,") ',').getD 1 "")]
          else []),
        FASettings.empty) :=
  ⟨by decide, by decide,
    (c1_stream_line_decode "$A0010000000.001000001,+00129," (by decide) (by decide)).1⟩

/-- C6: `get_freq_difference` follows the spec formula: chosen frequency
is the running mean when `freq = 0` and samples exist, else `freq`;
target is the chosen frequency rounded half-even to
`-floor(log10(|frequency + 0.1|)) + 3` decimal places when
`target_freq = 0`, else `target_freq`; difference is `frequency - target`
and ppm is `1000000 * difference / target` when `target > 0`, else `0`.
With exactly one prior sample of `10000000`, `get_freq_difference 0 0`
yields target `10000000`, difference `0` and ppm `0`. -/
theorem c6_freq_difference (ml : MeasureLog) (freq target_freq : ℚ)
    (hdom : ¬(target_freq = 0 ∧
      (if freq = 0 ∧ ml.frequencies ≠ [] then ml.average_value "frequency" else freq)
        + 1 / 10 = 0)) :
    ml.get_freq_difference freq target_freq = some (freqDifferenceClaim ml freq target_freq) ∧
    (MeasureLog.mk [] [(10000000, 0)] [] 0 false FASettings.empty).get_freq_difference 0 0 =
      some (10000000, 0, 0) := by
  constructor
  · rw [MeasureLog.get_freq_difference, freqDifferenceClaim]
    simp only []
    rw [if_neg hdom]
  · have havg : (MeasureLog.mk [] [(10000000, 0)] [] 0 false FASettings.empty).average_value
        "frequency" = 10000000 := by
      rw [MeasureLog.average_value]
      simp [MeasureLog.get_data]
    have habs : |(10000000 : ℚ) + 1 / 10| = 100000001 / 10 := by
      rw [abs_of_pos (by norm_num)]
      norm_num
    have hfloor : (⌊(100000001 : ℚ) / 10⌋ : ℤ) = 10000000 := by
      norm_num [Int.floor_eq_iff]
    have hl : Nat.log 10 10000000 = 7 :=
      Nat.log_eq_of_pow_le_of_lt_pow (by norm_num) (by norm_num)
    have hlog : floorLog10 ((100000001 : ℚ) / 10) = 7 := by
      rw [floorLog10, if_pos (by norm_num : (1:ℚ) ≤ 100000001 / 10), hfloor]
      simp [hl]
    have habs2 : |(100000001 : ℚ) / 10| = 100000001 / 10 := abs_of_pos (by norm_num)
    have hpow : (10000000 : ℚ) * (10 : ℚ) ^ (-4 : ℤ) = 1000 := by norm_num
    have hfl2 : (⌊(1000 : ℚ) + 1 / 2⌋ : ℤ) = 1000 := by norm_num [Int.floor_eq_iff]
    have hfl3 : (⌊(1000 : ℚ)⌋ : ℤ) = 1000 := by norm_num
    have hround : pyRoundDec 10000000 (-4 : ℤ) = 10000000 := by
      rw [pyRoundDec, hpow, roundHalfEven, hfl3]
      rw [if_neg (by norm_num), hfl2]
      norm_num
    rw [MeasureLog.get_freq_difference]
    simp only [havg]
    norm_num [habs2, hlog, hround]

/-- C6 witness: the refinement equation at a concrete state with a
nonzero requested frequency and target. -/
theorem c6_freq_difference_witness :
    (MeasureLog.init 0).get_freq_difference 5 7 =
      some (freqDifferenceClaim (MeasureLog.init 0) 5 7) :=
  (c6_freq_difference (MeasureLog.init 0) 5 7 (by simp)).1
